import Mathlib

/-!
Shallow embedding of the collaborative Klotski session engine
(src/index.tsx) and proofs about its move resolver, session state
machine, streak ledger updates and fallback puzzle.
-/

namespace Movetaller

/-- Session configuration constant MIN_PLAYERS (src/index.tsx, line 15). -/
def MIN_PLAYERS : Nat := 3

/-- Session configuration constant MAX_PLAYERS (src/index.tsx, line 16). -/
def MAX_PLAYERS : Nat := 5

/-- Session configuration constant GAME_DURATION_SECONDS (src/index.tsx, line 14). -/
def GAME_DURATION_SECONDS : Nat := 3600

/-- The four values of the shared `view` field of SharedGameState
(src/index.tsx, line 125): lobby, game (= playing), timesup (= expired),
win (= won). -/
inductive View where
  | lobby
  | game
  | timesup
  | win
deriving DecidableEq, Repr

/-- A board coordinate pair, used for `goalPosition`. -/
structure Coord where
  x : Int
  y : Int
deriving DecidableEq, Repr

/-- The Piece interface (src/index.tsx, lines 107-114). -/
structure Piece where
  id : Int
  x : Int
  y : Int
  width : Int
  height : Int
  isGoal : Bool
deriving DecidableEq, Repr

/-- The Puzzle interface (src/index.tsx, lines 116-121). -/
structure Puzzle where
  boardWidth : Int
  boardHeight : Int
  pieces : List Piece
  goalPosition : Coord
deriving DecidableEq, Repr

/-- A Player record of the players store (src/index.tsx, lines 100-103).
The streak is a non-negative integer: it is only ever set to 0 or
incremented by 1. -/
structure Player where
  id : String
  streak : Nat
deriving DecidableEq, Repr

/-- The SharedGameState interface (src/index.tsx, lines 124-129). -/
structure SharedGameState where
  view : View
  team : List String
  puzzle : Option Puzzle
  gameStartTime : Option Nat
deriving DecidableEq, Repr

/-- The `isOccupied` helper of GameScreen (src/index.tsx, lines 584-593):
true when the rectangle leaves the board, or overlaps any piece other
than `excludeId` under axis-aligned rectangle intersection. -/
def isOccupied (puz : Puzzle) (x y w h : Int) (excludeId : Int) : Bool :=
  if x < 0 ∨ y < 0 ∨ x + w > puz.boardWidth ∨ y + h > puz.boardHeight then true
  else
    puz.pieces.any fun p =>
      if p.id = excludeId then false
      else if x + w ≤ p.x ∨ x ≥ p.x + p.width ∨ y + h ≤ p.y ∨ y ≥ p.y + p.height then false
      else true

/-- The horizontal corridor scan of handleDragEnd (src/index.tsx, lines
538-545): walk step index i while fuel remains, keeping the last free
offset in finalX, stopping at the first occupied offset. -/
def slideX (puz : Puzzle) (p : Piece) (dir : Int) : Nat → Nat → Int → Int
  | 0, _, finalX => finalX
  | Nat.succ fuel, i, finalX =>
    let nextX := p.x + (i : Int) * dir
    if isOccupied puz nextX p.y p.width p.height p.id then finalX
    else slideX puz p dir fuel (i + 1) nextX

/-- The vertical corridor scan of handleDragEnd (src/index.tsx, lines
546-554). -/
def slideY (puz : Puzzle) (p : Piece) (dir : Int) : Nat → Nat → Int → Int
  | 0, _, finalY => finalY
  | Nat.succ fuel, i, finalY =>
    let nextY := p.y + (i : Int) * dir
    if isOccupied puz p.x nextY p.width p.height p.id then finalY
    else slideY puz p dir fuel (i + 1) nextY

/-- The move resolver of handleDragEnd (src/index.tsx, lines 529-554):
the dominant axis is horizontal when the absolute rounded x displacement
strictly exceeds the y one, else vertical; the chosen axis is scanned
step by step with direction the sign of the displacement. -/
def resolveMove (puz : Puzzle) (p : Piece) (dx dy : Int) : Int × Int :=
  if dy.natAbs < dx.natAbs then
    (slideX puz p dx.sign dx.natAbs 1 p.x, p.y)
  else
    (p.x, slideY puz p dy.sign dy.natAbs 1 p.y)

/-- The piece replacement performed on a successful move
(src/index.tsx, line 558). -/
def movePiece (puz : Puzzle) (pieceId fx fy : Int) : Puzzle :=
  { puz with
    pieces := puz.pieces.map fun p =>
      if p.id = pieceId then { p with x := fx, y := fy } else p }

/-- The win test of GameScreen.checkWinCondition (src/index.tsx, lines
468-473): find the goal piece and compare its position with the goal
position. -/
def isSolved (puz : Puzzle) : Bool :=
  match puz.pieces.find? (fun p => p.isGoal) with
  | some g => decide (g.x = puz.goalPosition.x ∧ g.y = puz.goalPosition.y)
  | none => false

/-- The hard-coded fallback puzzle substituted when generation fails
(src/index.tsx, lines 227-241). -/
def fallbackPuzzle : Puzzle :=
  { boardWidth := 4, boardHeight := 5, goalPosition := { x := 1, y := 3 },
    pieces :=
      [ { id := 1, x := 1, y := 0, width := 2, height := 2, isGoal := true },
        { id := 2, x := 0, y := 0, width := 1, height := 2, isGoal := false },
        { id := 3, x := 3, y := 0, width := 1, height := 2, isGoal := false },
        { id := 4, x := 0, y := 2, width := 1, height := 2, isGoal := false },
        { id := 5, x := 3, y := 2, width := 1, height := 2, isGoal := false },
        { id := 6, x := 1, y := 2, width := 2, height := 1, isGoal := false },
        { id := 7, x := 1, y := 3, width := 1, height := 1, isGoal := false },
        { id := 8, x := 2, y := 3, width := 1, height := 1, isGoal := false },
        { id := 9, x := 0, y := 4, width := 1, height := 1, isGoal := false },
        { id := 10, x := 3, y := 4, width := 1, height := 1, isGoal := false } ] }

/-- The goal piece of the fallback puzzle. -/
def fallbackGoalPiece : Piece :=
  { id := 1, x := 1, y := 0, width := 2, height := 2, isGoal := true }

/-- The team toggle of handleJoinOrLeaveTeam (src/index.tsx, lines
709-717): remove the player when present, append otherwise. -/
def toggleTeam (team : List String) (pid : String) : List String :=
  if pid ∈ team then team.filter (fun q => q ≠ pid) else team ++ [pid]

/-- The canStartGame guard of LobbyScreen (src/index.tsx, line 382):
the start button is enabled only for team sizes in
[MIN_PLAYERS, MAX_PLAYERS]. -/
def canStartGame (team : List String) : Bool :=
  decide (MIN_PLAYERS ≤ team.length ∧ team.length ≤ MAX_PLAYERS)

/-- The StartGame operation: handleStartGame (src/index.tsx, lines
724-740) installs the generated puzzle, switches the view to game and
records the start time; it is reachable only through the LobbyScreen
start button, which is rendered in the lobby view and disabled unless
canStartGame holds (src/index.tsx, lines 399-401 and 804-816), so the
operation is a no-op outside that guard. -/
def startGame (s : SharedGameState) (gen : Puzzle) (now : Nat) : SharedGameState :=
  if s.view = View.lobby ∧ canStartGame s.team then
    { s with puzzle := some gen, view := View.game, gameStartTime := some now }
  else s

/-- Streak of a player id in the players store, when a record exists. -/
def lookupStreak (players : List Player) (pid : String) : Option Nat :=
  (players.find? fun p => decide (p.id = pid)).map fun p => p.streak

/-- The ledger update loop shared by handleWin and handleTimeUp
(src/index.tsx, lines 745-752 and 770-777): for each team member, if a
record exists in the players store, replace its streak by f of it;
members without a record are skipped. handleWin instantiates f with
adding 1, handleTimeUp with the constant 0. -/
def ledgerStep (f : Nat → Nat) (ps : List Player) (pid : String) : List Player :=
  if ps.any (fun p => decide (p.id = pid)) then
    ps.map fun p => if p.id = pid then { p with streak := f p.streak } else p
  else ps

/-- The iteration of ledgerStep over the whole team
(src/index.tsx, lines 746-750 and 771-775). -/
def updateTeamStreaks (f : Nat → Nat) (players : List Player) (team : List String) : List Player :=
  team.foldl (ledgerStep f) players

/-- handleWin (src/index.tsx, lines 742-757): guarded on the view still
being game, increments the streak of every team member that has a
record, and publishes the snapshot with view win. -/
def handleWin (s : SharedGameState) (players : List Player) :
    SharedGameState × List Player :=
  if s.view = View.game then
    ({ s with view := View.win }, updateTeamStreaks (fun n => n + 1) players s.team)
  else (s, players)

/-- handleTimeUp (src/index.tsx, lines 767-782): guarded on the view
still being game, resets the streak of every team member that has a
record to 0, and publishes the snapshot with view timesup. -/
def handleTimeUp (s : SharedGameState) (players : List Player) :
    SharedGameState × List Player :=
  if s.view = View.game then
    ({ s with view := View.timesup }, updateTeamStreaks (fun _ => 0) players s.team)
  else (s, players)

/-- The fresh session snapshot written by resetSharedState
(src/index.tsx, lines 174-176). -/
def initialSharedState : SharedGameState :=
  { view := View.lobby, team := [], puzzle := none, gameStartTime := none }

/-- The snapshot published by handlePuzzleChange (src/index.tsx, lines
759-765) when a drag ends in handleDragEnd (lines 519-568): the dragged
piece is located by id, the resolver computes the final cell, and a new
snapshot with the replaced piece is published only when the position
changed; otherwise nothing is published (none). -/
def puzzleChangeResult (s : SharedGameState) (pieceId dx dy : Int) :
    Option SharedGameState :=
  match s.puzzle with
  | none => none
  | some puz =>
    match puz.pieces.find? (fun p => decide (p.id = pieceId)) with
    | none => none
    | some piece =>
      if (resolveMove puz piece dx dy).1 ≠ piece.x ∨
          (resolveMove puz piece dx dy).2 ≠ piece.y then
        some { s with
          puzzle := some (movePiece puz pieceId
            (resolveMove puz piece dx dy).1 (resolveMove puz piece dx dy).2) }
      else none

/-- The ordered list of snapshots published while handling one completed
drag: first the puzzle-change snapshot from handlePuzzleChange
(src/index.tsx, lines 759-765), then, when the new puzzle satisfies
checkWinCondition (lines 468-477) and the view is still game, the win
snapshot from handleWin (lines 742-757) as a second, separate publish. -/
def applyMovePublishes (s : SharedGameState) (pieceId dx dy : Int) :
    List SharedGameState :=
  match puzzleChangeResult s pieceId dx dy with
  | none => []
  | some s1 =>
    match s1.puzzle with
    | none => [s1]
    | some puz1 =>
      if isSolved puz1 = true ∧ s1.view = View.game then
        [s1, { s1 with view := View.win }]
      else [s1]

/-- A piece lies within the board bounds (data model invariant of the
spec, stated with the comparisons used by isOccupied). -/
def inBounds (puz : Puzzle) (p : Piece) : Prop :=
  0 ≤ p.x ∧ 0 ≤ p.y ∧ p.x + p.width ≤ puz.boardWidth ∧ p.y + p.height ≤ puz.boardHeight

/-- Two pieces occupy disjoint cell rectangles, in the axis-aligned
separation form tested by isOccupied. -/
def separated (p q : Piece) : Prop :=
  p.x + p.width ≤ q.x ∨ p.x ≥ q.x + q.width ∨ p.y + p.height ≤ q.y ∨ p.y ≥ q.y + q.height

/-- Pieces with distinct ids never overlap. -/
def nonOverlapping (puz : Puzzle) : Prop :=
  ∀ p ∈ puz.pieces, ∀ q ∈ puz.pieces, q.id ≠ p.id → separated p q

/-- Every piece is in bounds and pieces with distinct ids never
overlap. -/
def layoutOk (puz : Puzzle) : Prop :=
  (∀ p ∈ puz.pieces, inBounds puz p) ∧ nonOverlapping puz

/-- A board cell lies inside some piece of the puzzle. -/
def cellCovered (puz : Puzzle) (cx cy : Int) : Bool :=
  puz.pieces.any fun p =>
    decide (p.x ≤ cx ∧ cx < p.x + p.width ∧ p.y ≤ cy ∧ cy < p.y + p.height)

/-- Every board cell is covered by some piece. -/
def coversAllCells (puz : Puzzle) : Bool :=
  (List.range puz.boardWidth.toNat).all fun cx =>
    (List.range puz.boardHeight.toNat).all fun cy =>
      cellCovered puz (cx : Int) (cy : Int)

instance (puz : Puzzle) (p : Piece) : Decidable (inBounds puz p) := by
  unfold inBounds; infer_instance

instance (p q : Piece) : Decidable (separated p q) := by
  unfold separated; infer_instance

instance (puz : Puzzle) : Decidable (nonOverlapping puz) := by
  unfold nonOverlapping; infer_instance

instance (puz : Puzzle) : Decidable (layoutOk puz) := by
  unfold layoutOk; infer_instance

/-- One shared-state transition of the session engine, as published by
the handlers of src/index.tsx, paired with the players store each
handler updates. Guards record where each handler can fire: the join,
leave and start actions are offered only by LobbyScreen (lobby view),
drags and the win and timer effects only by GameScreen (game view,
lines 804-828), and the back-to-lobby button only by the win and
timesup screens. -/
inductive Step : SharedGameState × List Player → SharedGameState × List Player → Prop where
  | joinLeave (s : SharedGameState) (ps : List Player) (pid : String)
      (hv : s.view = View.lobby) :
      Step (s, ps) ({ s with team := toggleTeam s.team pid }, ps)
  | startGameStep (s : SharedGameState) (ps : List Player) (gen : Puzzle) (t : Nat)
      (hv : s.view = View.lobby) (hsz : canStartGame s.team = true) :
      Step (s, ps) ({ s with puzzle := some gen, view := View.game, gameStartTime := some t }, ps)
  | applyMoveStep (s : SharedGameState) (ps : List Player) (pieceId dx dy : Int)
      (s1 : SharedGameState) (hv : s.view = View.game)
      (hpub : puzzleChangeResult s pieceId dx dy = some s1) :
      Step (s, ps) (s1, ps)
  | winFire (s : SharedGameState) (ps : List Player) (puz : Puzzle)
      (hv : s.view = View.game) (hp : s.puzzle = some puz)
      (hsol : isSolved puz = true) :
      Step (s, ps) ({ s with view := View.win }, updateTeamStreaks (fun n => n + 1) ps s.team)
  | timeUpStep (s : SharedGameState) (ps : List Player)
      (hv : s.view = View.game) :
      Step (s, ps) ({ s with view := View.timesup }, updateTeamStreaks (fun _ => 0) ps s.team)
  | backToLobby (s : SharedGameState) (ps : List Player)
      (hv : s.view = View.win ∨ s.view = View.timesup) :
      Step (s, ps) (initialSharedState, ps)

/-- States reachable from the freshly seeded session (resetSharedState)
with an arbitrary initial players store. -/
def Reachable (ps0 : List Player) (t : SharedGameState × List Player) : Prop :=
  Relation.ReflTransGen Step (initialSharedState, ps0) t

/-! Concrete fixtures used by witnesses and counterexamples. -/

def pidA : String := "ana"
def pidB : String := "bob"
def pidC : String := "cat"
def pidD : String := "dan"
def pidE : String := "eva"

/-- A lobby snapshot whose team has only two members. -/
def lobbyTwoState : SharedGameState :=
  { view := View.lobby, team := [pidA, pidB], puzzle := none, gameStartTime := none }

/-- A players store with four records. -/
def playersFour : List Player :=
  [ { id := pidA, streak := 2 }, { id := pidB, streak := 0 },
    { id := pidC, streak := 7 }, { id := pidD, streak := 1 } ]

/-- A playing snapshot over the fallback puzzle with a team of four. -/
def playingFourState : SharedGameState :=
  { view := View.game, team := [pidA, pidB, pidC, pidD],
    puzzle := some fallbackPuzzle, gameStartTime := some 0 }

/-- The flush scenario board: a 5 by 1 corridor with the mover at (0,0)
and a blocker at (2,0), so exactly one cell of travel is free to its
right. -/
def flushPuzzle : Puzzle :=
  { boardWidth := 5, boardHeight := 1, goalPosition := { x := 4, y := 0 },
    pieces :=
      [ { id := 1, x := 0, y := 0, width := 1, height := 1, isGoal := false },
        { id := 2, x := 2, y := 0, width := 1, height := 1, isGoal := false } ] }

/-- The dragged piece of the flush scenario. -/
def flushMover : Piece :=
  { id := 1, x := 0, y := 0, width := 1, height := 1, isGoal := false }

/-- A 1 by 2 board whose single goal piece wins by moving one cell
down. -/
def oneMovePuzzle : Puzzle :=
  { boardWidth := 1, boardHeight := 2, goalPosition := { x := 0, y := 1 },
    pieces := [ { id := 1, x := 0, y := 0, width := 1, height := 1, isGoal := true } ] }

/-- The puzzle above after the winning one-cell move. -/
def oneMovePuzzleSolved : Puzzle :=
  { boardWidth := 1, boardHeight := 2, goalPosition := { x := 0, y := 1 },
    pieces := [ { id := 1, x := 0, y := 1, width := 1, height := 1, isGoal := true } ] }

/-- A playing snapshot over the one-move puzzle. -/
def oneMoveState : SharedGameState :=
  { view := View.game, team := [pidA, pidB, pidC],
    puzzle := some oneMovePuzzle, gameStartTime := some 0 }

/-- A snapshot reached by letting the one-hour timer expire during play
over the fallback puzzle. -/
def badExpiredState : SharedGameState :=
  { view := View.timesup, team := [pidA, pidB, pidC],
    puzzle := some fallbackPuzzle, gameStartTime := some 0 }

end Movetaller

namespace Movetaller

/-- C6 counterexample: the fallback puzzle does not cover all 20 board
cells; the cell (1,4) (and likewise (2,4)) is covered by no piece, so
the coverage conjunct of the claim is false. -/
theorem fallbackPuzzle_not_covering :
    coversAllCells fallbackPuzzle = false ∧
    cellCovered fallbackPuzzle 1 4 = false ∧
    cellCovered fallbackPuzzle 2 4 = false := by
  decide

/-- C6 amended: the fallback puzzle is a 4 by 5 board with goal cell
(1,3), a single 2 by 2 goal piece at (1,0) and 9 filler pieces, forming
an in-bounds, pairwise non-overlapping layout that covers exactly the 18
board cells other than (1,4) and (2,4), which are left empty. -/
theorem fallbackPuzzle_valid :
    fallbackPuzzle.boardWidth = 4 ∧ fallbackPuzzle.boardHeight = 5 ∧
    fallbackPuzzle.goalPosition = { x := 1, y := 3 } ∧
    fallbackPuzzle.pieces.countP (fun p => p.isGoal) = 1 ∧
    fallbackPuzzle.pieces.find? (fun p => p.isGoal) = some fallbackGoalPiece ∧
    fallbackGoalPiece.x = 1 ∧ fallbackGoalPiece.y = 0 ∧
    fallbackGoalPiece.width = 2 ∧ fallbackGoalPiece.height = 2 ∧
    fallbackPuzzle.pieces.countP (fun p => !p.isGoal) = 9 ∧
    layoutOk fallbackPuzzle ∧
    ((List.range 4).all fun cx => (List.range 5).all fun cy =>
      cellCovered fallbackPuzzle (cx : Int) (cy : Int) ||
        decide (((cx : Int) = 1 ∨ (cx : Int) = 2) ∧ (cy : Int) = 4)) = true ∧
    cellCovered fallbackPuzzle 1 4 = false ∧
    cellCovered fallbackPuzzle 2 4 = false := by
  decide

/-- C1: StartGame invoked in the lobby with a team size outside
[MIN_PLAYERS, MAX_PLAYERS] is a no-op: the snapshot is unchanged, so the
phase stays lobby and no puzzle or start time is installed. -/
theorem startGame_illegal_size_noop (s : SharedGameState) (gen : Puzzle) (now : Nat)
    (hv : s.view = View.lobby)
    (hsz : ¬ (MIN_PLAYERS ≤ s.team.length ∧ s.team.length ≤ MAX_PLAYERS)) :
    startGame s gen now = s ∧ (startGame s gen now).view = View.lobby ∧
    (startGame s gen now).puzzle = s.puzzle ∧
    (startGame s gen now).gameStartTime = s.gameStartTime := by
  have hfalse : canStartGame s.team = false := by
    simp [canStartGame, hsz]
  have h : startGame s gen now = s := by
    simp [startGame, hfalse]
  exact ⟨h, by rw [h, hv], by rw [h], by rw [h]⟩

/-- C1 witness: a concrete team of size 2 in the lobby is rejected. -/
theorem startGame_illegal_size_noop_witness :
    startGame lobbyTwoState fallbackPuzzle 5 = lobbyTwoState ∧
    (startGame lobbyTwoState fallbackPuzzle 5).view = View.lobby ∧
    (startGame lobbyTwoState fallbackPuzzle 5).puzzle = lobbyTwoState.puzzle ∧
    (startGame lobbyTwoState fallbackPuzzle 5).gameStartTime = lobbyTwoState.gameStartTime :=
  startGame_illegal_size_noop lobbyTwoState fallbackPuzzle 5 rfl (by decide)

/-- C8: once the session is no longer in the game view, handleTimeUp is
a no-op on both the snapshot and the players store, so a second
invocation in the expired state changes nothing and the ledger reset is
not applied twice. -/
theorem timeUp_noop_after_leaving_playing (s : SharedGameState) (players : List Player)
    (h : s.view ≠ View.game) :
    handleTimeUp s players = (s, players) := by
  simp [handleTimeUp, h]

/-- C8 witness: running handleTimeUp on a playing state and then again
on its expired result changes nothing the second time. -/
theorem timeUp_noop_after_leaving_playing_witness :
    handleTimeUp (handleTimeUp playingFourState playersFour).1
        (handleTimeUp playingFourState playersFour).2 =
      ((handleTimeUp playingFourState playersFour).1,
       (handleTimeUp playingFourState playersFour).2) :=
  timeUp_noop_after_leaving_playing
    (handleTimeUp playingFourState playersFour).1
    (handleTimeUp playingFourState playersFour).2 (by decide)

/-- Updating the streaks of the entries with a given id changes the
lookup at that id by f. -/
theorem lookupStreak_map_update (f : Nat → Nat) (pid : String) (ps : List Player) :
    lookupStreak
      (ps.map fun p => if p.id = pid then { p with streak := f p.streak } else p) pid
      = (lookupStreak ps pid).map f := by
  induction ps with
  | nil => rfl
  | cons p ps ih =>
    by_cases hp : p.id = pid
    · simp [lookupStreak, List.find?_cons, hp]
    · simpa [lookupStreak, List.find?_cons, hp] using ih

/-- Updating the streaks of the entries with a given id leaves lookups
at other ids unchanged. -/
theorem lookupStreak_map_update_other (f : Nat → Nat) (pid q : String) (h : q ≠ pid)
    (ps : List Player) :
    lookupStreak
      (ps.map fun p => if p.id = pid then { p with streak := f p.streak } else p) q
      = lookupStreak ps q := by
  induction ps with
  | nil => rfl
  | cons p ps ih =>
    by_cases hp : p.id = pid
    · have hq : ¬ pid = q := fun e => h e.symm
      simpa [lookupStreak, List.find?_cons, hp, hq] using ih
    · by_cases hq : p.id = q
      · simp [lookupStreak, List.find?_cons, hp, hq, h]
      · simpa [lookupStreak, List.find?_cons, hp, hq] using ih

/-- Unfolding one team member from the ledger iteration. -/
theorem updateTeamStreaks_cons (f : Nat → Nat) (ps : List Player) (t : String)
    (ts : List String) :
    updateTeamStreaks f ps (t :: ts) = updateTeamStreaks f (ledgerStep f ps t) ts := rfl

/-- One ledgerStep at a member id acts as f on the lookup at that id,
also when no record exists (both sides are then none). -/
theorem ledgerStep_lookup_self (f : Nat → Nat) (ps : List Player) (pid : String) :
    lookupStreak (ledgerStep f ps pid) pid = (lookupStreak ps pid).map f := by
  unfold ledgerStep
  by_cases hany : ps.any (fun p => decide (p.id = pid)) = true
  · rw [if_pos hany]
    exact lookupStreak_map_update f pid ps
  · rw [if_neg hany]
    have hnone : ps.find? (fun p => decide (p.id = pid)) = none := by
      rw [List.find?_eq_none]
      intro p hp hmem
      exact hany (List.any_eq_true.mpr ⟨p, hp, hmem⟩)
    simp [lookupStreak, hnone]

/-- One ledgerStep at a member id leaves lookups at other ids
unchanged. -/
theorem ledgerStep_lookup_other (f : Nat → Nat) (ps : List Player) (pid q : String)
    (h : q ≠ pid) :
    lookupStreak (ledgerStep f ps pid) q = lookupStreak ps q := by
  unfold ledgerStep
  by_cases hany : ps.any (fun p => decide (p.id = pid)) = true
  · rw [if_pos hany]
    exact lookupStreak_map_update_other f pid q h ps
  · rw [if_neg hany]

/-- Iterating the ledger over ids not containing q leaves the lookup at
q unchanged. -/
theorem updateTeamStreaks_lookup_not_mem (f : Nat → Nat) (q : String) :
    ∀ (team : List String) (ps : List Player), q ∉ team →
      lookupStreak (updateTeamStreaks f ps team) q = lookupStreak ps q := by
  intro team
  induction team with
  | nil => intro ps _; rfl
  | cons t ts ih =>
    intro ps hq
    have hqt : q ≠ t := fun e => hq (e ▸ List.mem_cons_self t ts)
    have hqts : q ∉ ts := fun e => hq (List.mem_cons_of_mem t e)
    rw [updateTeamStreaks_cons, ih (ledgerStep f ps t) hqts]
    exact ledgerStep_lookup_other f ps t q hqt

/-- Iterating the ledger over a duplicate-free team acts as f on the
lookup at each member id. -/
theorem updateTeamStreaks_lookup_mem (f : Nat → Nat) (q : String) :
    ∀ (team : List String) (ps : List Player), q ∈ team → team.Nodup →
      lookupStreak (updateTeamStreaks f ps team) q = (lookupStreak ps q).map f := by
  intro team
  induction team with
  | nil => intro ps h; exact absurd h (List.not_mem_nil q)
  | cons t ts ih =>
    intro ps hq hnd
    have hnd2 := List.nodup_cons.mp hnd
    rw [updateTeamStreaks_cons]
    by_cases hqt : q = t
    · subst hqt
      rw [updateTeamStreaks_lookup_not_mem f q ts (ledgerStep f ps q) hnd2.1]
      exact ledgerStep_lookup_self f ps q
    · have hqts : q ∈ ts := by
        cases List.mem_cons.mp hq with
        | inl h => exact absurd h hqt
        | inr h => exact h
      rw [ih (ledgerStep f ps t) hqts hnd2.2]
      rw [ledgerStep_lookup_other f ps t q hqt]

/-- C7: on the transition to won, every team member with a ledger record
has their streak incremented by exactly 1, and on the transition to
expired it is set to 0; lookups for ids outside the team are unchanged
by both transitions; the views become win and timesup respectively. -/
theorem streak_transitions (s : SharedGameState) (players : List Player)
    (pid : String) (n : Nat) (hv : s.view = View.game) (hnd : s.team.Nodup) :
    (pid ∈ s.team → lookupStreak players pid = some n →
      lookupStreak (handleWin s players).2 pid = some (n + 1) ∧
      lookupStreak (handleTimeUp s players).2 pid = some 0) ∧
    (pid ∉ s.team →
      lookupStreak (handleWin s players).2 pid = lookupStreak players pid ∧
      lookupStreak (handleTimeUp s players).2 pid = lookupStreak players pid) ∧
    (handleWin s players).1.view = View.win ∧
    (handleTimeUp s players).1.view = View.timesup := by
  have hw : (handleWin s players).2 = updateTeamStreaks (fun k => k + 1) players s.team := by
    simp [handleWin, hv]
  have ht : (handleTimeUp s players).2 = updateTeamStreaks (fun _ => 0) players s.team := by
    simp [handleTimeUp, hv]
  refine ⟨fun hmem hlk => ?_, fun hnm => ?_, by simp [handleWin, hv], by simp [handleTimeUp, hv]⟩
  · rw [hw, ht, updateTeamStreaks_lookup_mem _ _ _ _ hmem hnd,
      updateTeamStreaks_lookup_mem _ _ _ _ hmem hnd, hlk]
    exact ⟨rfl, rfl⟩
  · rw [hw, ht, updateTeamStreaks_lookup_not_mem _ _ _ _ hnm,
      updateTeamStreaks_lookup_not_mem _ _ _ _ hnm]
    exact ⟨rfl, rfl⟩

/-- C7 witness: in a playing state with a team of four, winning takes
the streak of the first member from 2 to 3, expiry takes it to 0, and a
player outside the team keeps their lookup. -/
theorem streak_transitions_witness :
    lookupStreak (handleWin playingFourState playersFour).2 pidA = some 3 ∧
    lookupStreak (handleTimeUp playingFourState playersFour).2 pidA = some 0 ∧
    lookupStreak (handleWin playingFourState playersFour).2 pidE =
      lookupStreak playersFour pidE := by
  have h := streak_transitions playingFourState playersFour pidA 2 rfl (by decide)
  have he := streak_transitions playingFourState playersFour pidE 0 rfl (by decide)
  have h1 := h.1 (by decide) (by decide)
  exact ⟨h1.1, h1.2, (he.2.1 (by decide)).1⟩

/-- ledgerStep preserves the list of record ids. -/
theorem ledgerStep_map_id (f : Nat → Nat) (ps : List Player) (pid : String) :
    (ledgerStep f ps pid).map (fun p => p.id) = ps.map (fun p => p.id) := by
  unfold ledgerStep
  by_cases hany : ps.any (fun p => decide (p.id = pid)) = true
  · rw [if_pos hany, List.map_map]
    refine List.map_congr_left ?_
    intro p _
    by_cases hp : p.id = pid <;> simp [hp]
  · rw [if_neg hany]

/-- updateTeamStreaks preserves the list of record ids. -/
theorem updateTeamStreaks_map_id (f : Nat → Nat) :
    ∀ (team : List String) (ps : List Player),
      (updateTeamStreaks f ps team).map (fun p => p.id) = ps.map (fun p => p.id) := by
  intro team
  induction team with
  | nil => intro ps; rfl
  | cons t ts ih =>
    intro ps
    rw [updateTeamStreaks_cons, ih (ledgerStep f ps t)]
    exact ledgerStep_map_id f ps t

/-- Characterization of the horizontal corridor scan: starting at step
index i, if the first m offsets are free and the scan stops there
(either out of fuel or blocked at offset i+m), the final x is the
accumulator for m = 0 and the last free offset otherwise. -/
theorem slideX_run (puz : Puzzle) (p : Piece) (dir : Int) :
    ∀ (fuel i : Nat) (acc : Int) (m : Nat), m ≤ fuel →
      (∀ j : Nat, j < m →
        isOccupied puz (p.x + ((i : Int) + (j : Int)) * dir) p.y p.width p.height p.id = false) →
      (m = fuel ∨
        isOccupied puz (p.x + ((i : Int) + (m : Int)) * dir) p.y p.width p.height p.id = true) →
      slideX puz p dir fuel i acc =
        (if m = 0 then acc else p.x + ((i : Int) + (m : Int) - 1) * dir) := by
  intro fuel
  induction fuel with
  | zero =>
    intro i acc m hm _ _
    have hm0 : m = 0 := Nat.le_zero.mp hm
    subst hm0
    simp [slideX]
  | succ fuel ih =>
    intro i acc m hm hfree hstop
    by_cases hocc : isOccupied puz (p.x + (i : Int) * dir) p.y p.width p.height p.id = true
    · have hm0 : m = 0 := by
        by_contra hne
        have h0 := hfree 0 (Nat.pos_of_ne_zero hne)
        rw [show ((i : Int) + ((0 : Nat) : Int)) = (i : Int) by push_cast; ring] at h0
        rw [hocc] at h0
        exact Bool.true_eq_false.mp h0
      subst hm0
      simp [slideX, hocc]
    · have hbool : isOccupied puz (p.x + (i : Int) * dir) p.y p.width p.height p.id = false :=
        Bool.not_eq_true _ ▸ hocc
      obtain ⟨m2, rfl⟩ : ∃ m2, m = m2 + 1 := by
        cases m with
        | zero =>
          cases hstop with
          | inl h => exact absurd h.symm (Nat.succ_ne_zero fuel)
          | inr h =>
            rw [show ((i : Int) + ((0 : Nat) : Int)) = (i : Int) by push_cast; ring] at h
            rw [hbool] at h
            exact absurd h (by simp)
        | succ m2 => exact ⟨m2, rfl⟩
      have hm2 : m2 ≤ fuel := Nat.succ_le_succ_iff.mp hm
      have hfree2 : ∀ j : Nat, j < m2 →
          isOccupied puz (p.x + (((i + 1 : Nat) : Int) + (j : Int)) * dir)
            p.y p.width p.height p.id = false := by
        intro j hj
        have h := hfree (j + 1) (Nat.succ_lt_succ hj)
        rw [show ((i : Int) + ((j + 1 : Nat) : Int)) = (((i + 1 : Nat) : Int) + (j : Int)) by
          push_cast; ring] at h
        exact h
      have hstop2 : m2 = fuel ∨
          isOccupied puz (p.x + (((i + 1 : Nat) : Int) + (m2 : Int)) * dir)
            p.y p.width p.height p.id = true := by
        cases hstop with
        | inl h => exact Or.inl (Nat.succ_injective h)
        | inr h =>
          rw [show ((i : Int) + ((m2 + 1 : Nat) : Int)) = (((i + 1 : Nat) : Int) + (m2 : Int)) by
            push_cast; ring] at h
          exact Or.inr h
      have hrec := ih (i + 1) (p.x + (i : Int) * dir) m2 hm2 hfree2 hstop2
      simp only [slideX, hbool, Bool.false_eq_true, if_false]
      rw [hrec]
      by_cases h0 : m2 = 0
      · subst h0
        simp only [if_pos rfl, if_neg (Nat.succ_ne_zero 0)]
        push_cast
        ring
      · rw [if_neg h0, if_neg (Nat.succ_ne_zero m2)]
        push_cast
        ring

/-- Characterization of the vertical corridor scan, the mirror image of
the horizontal one. -/
theorem slideY_run (puz : Puzzle) (p : Piece) (dir : Int) :
    ∀ (fuel i : Nat) (acc : Int) (m : Nat), m ≤ fuel →
      (∀ j : Nat, j < m →
        isOccupied puz p.x (p.y + ((i : Int) + (j : Int)) * dir) p.width p.height p.id = false) →
      (m = fuel ∨
        isOccupied puz p.x (p.y + ((i : Int) + (m : Int)) * dir) p.width p.height p.id = true) →
      slideY puz p dir fuel i acc =
        (if m = 0 then acc else p.y + ((i : Int) + (m : Int) - 1) * dir) := by
  intro fuel
  induction fuel with
  | zero =>
    intro i acc m hm _ _
    have hm0 : m = 0 := Nat.le_zero.mp hm
    subst hm0
    simp [slideY]
  | succ fuel ih =>
    intro i acc m hm hfree hstop
    by_cases hocc : isOccupied puz p.x (p.y + (i : Int) * dir) p.width p.height p.id = true
    · have hm0 : m = 0 := by
        by_contra hne
        have h0 := hfree 0 (Nat.pos_of_ne_zero hne)
        rw [show ((i : Int) + ((0 : Nat) : Int)) = (i : Int) by push_cast; ring] at h0
        rw [hocc] at h0
        exact Bool.true_eq_false.mp h0
      subst hm0
      simp [slideY, hocc]
    · have hbool : isOccupied puz p.x (p.y + (i : Int) * dir) p.width p.height p.id = false :=
        Bool.not_eq_true _ ▸ hocc
      obtain ⟨m2, rfl⟩ : ∃ m2, m = m2 + 1 := by
        cases m with
        | zero =>
          cases hstop with
          | inl h => exact absurd h.symm (Nat.succ_ne_zero fuel)
          | inr h =>
            rw [show ((i : Int) + ((0 : Nat) : Int)) = (i : Int) by push_cast; ring] at h
            rw [hbool] at h
            exact absurd h (by simp)
        | succ m2 => exact ⟨m2, rfl⟩
      have hm2 : m2 ≤ fuel := Nat.succ_le_succ_iff.mp hm
      have hfree2 : ∀ j : Nat, j < m2 →
          isOccupied puz p.x (p.y + (((i + 1 : Nat) : Int) + (j : Int)) * dir)
            p.width p.height p.id = false := by
        intro j hj
        have h := hfree (j + 1) (Nat.succ_lt_succ hj)
        rw [show ((i : Int) + ((j + 1 : Nat) : Int)) = (((i + 1 : Nat) : Int) + (j : Int)) by
          push_cast; ring] at h
        exact h
      have hstop2 : m2 = fuel ∨
          isOccupied puz p.x (p.y + (((i + 1 : Nat) : Int) + (m2 : Int)) * dir)
            p.width p.height p.id = true := by
        cases hstop with
        | inl h => exact Or.inl (Nat.succ_injective h)
        | inr h =>
          rw [show ((i : Int) + ((m2 + 1 : Nat) : Int)) = (((i + 1 : Nat) : Int) + (m2 : Int)) by
            push_cast; ring] at h
          exact Or.inr h
      have hrec := ih (i + 1) (p.y + (i : Int) * dir) m2 hm2 hfree2 hstop2
      simp only [slideY, hbool, Bool.false_eq_true, if_false]
      rw [hrec]
      by_cases h0 : m2 = 0
      · subst h0
        simp only [if_pos rfl, if_neg (Nat.succ_ne_zero 0)]
        push_cast
        ring
      · rw [if_neg h0, if_neg (Nat.succ_ne_zero m2)]
        push_cast
        ring

/-- The horizontal scan never leaves a free accumulator for an occupied
position: every value it returns is either the accumulator it was given
or an offset it checked to be free. -/
theorem slideX_keeps_free (puz : Puzzle) (p : Piece) (dir : Int) :
    ∀ (fuel i : Nat) (acc : Int),
      isOccupied puz acc p.y p.width p.height p.id = false →
      isOccupied puz (slideX puz p dir fuel i acc) p.y p.width p.height p.id = false := by
  intro fuel
  induction fuel with
  | zero => intro i acc h; simpa [slideX] using h
  | succ fuel ih =>
    intro i acc h
    by_cases hocc : isOccupied puz (p.x + (i : Int) * dir) p.y p.width p.height p.id = true
    · simpa [slideX, hocc] using h
    · have hbool : isOccupied puz (p.x + (i : Int) * dir) p.y p.width p.height p.id = false :=
        Bool.not_eq_true _ ▸ hocc
      simp only [slideX, hbool, Bool.false_eq_true, if_false]
      exact ih (i + 1) (p.x + (i : Int) * dir) hbool

/-- The vertical scan analog of slideX_keeps_free. -/
theorem slideY_keeps_free (puz : Puzzle) (p : Piece) (dir : Int) :
    ∀ (fuel i : Nat) (acc : Int),
      isOccupied puz p.x acc p.width p.height p.id = false →
      isOccupied puz p.x (slideY puz p dir fuel i acc) p.width p.height p.id = false := by
  intro fuel
  induction fuel with
  | zero => intro i acc h; simpa [slideY] using h
  | succ fuel ih =>
    intro i acc h
    by_cases hocc : isOccupied puz p.x (p.y + (i : Int) * dir) p.width p.height p.id = true
    · simpa [slideY, hocc] using h
    · have hbool : isOccupied puz p.x (p.y + (i : Int) * dir) p.width p.height p.id = false :=
        Bool.not_eq_true _ ▸ hocc
      simp only [slideY, hbool, Bool.false_eq_true, if_false]
      exact ih (i + 1) (p.y + (i : Int) * dir) hbool

/-- In a layout where every piece is in bounds and pieces with distinct
ids are separated, the current cell range of a piece is not occupied
when the piece itself is excluded. -/
theorem start_not_occupied (puz : Puzzle) (p : Piece) (hp : p ∈ puz.pieces)
    (hb : inBounds puz p)
    (hsep : ∀ q ∈ puz.pieces, q.id ≠ p.id → separated p q) :
    isOccupied puz p.x p.y p.width p.height p.id = false := by
  obtain ⟨h1, h2, h3, h4⟩ := hb
  unfold isOccupied
  rw [if_neg (by omega)]
  rw [List.any_eq_false]
  intro q hq
  by_cases hid : q.id = p.id
  · simp [hid]
  · have hs : p.x + p.width ≤ q.x ∨ p.x ≥ q.x + q.width ∨
        p.y + p.height ≤ q.y ∨ p.y ≥ q.y + q.height := hsep q hq hid
    simp [hid, hs]

/-- C5: for every drag displacement on a puzzle whose pieces are in
bounds and pairwise non-overlapping, the position returned by the move
resolver is not occupied for the moved piece against the rest of the
puzzle (isOccupied excluding the piece itself is false); the resolver is
a total function, so there is no error outcome. -/
theorem resolveMove_safe (puz : Puzzle) (p : Piece) (dx dy : Int)
    (hp : p ∈ puz.pieces) (hl : layoutOk puz) :
    isOccupied puz (resolveMove puz p dx dy).1 (resolveMove puz p dx dy).2
      p.width p.height p.id = false := by
  have hstart := start_not_occupied puz p hp (hl.1 p hp) (fun q hq hne => hl.2 p hp q hq hne)
  unfold resolveMove
  by_cases hax : dy.natAbs < dx.natAbs
  · rw [if_pos hax]
    simpa using slideX_keeps_free puz p dx.sign dx.natAbs 1 p.x hstart
  · rw [if_neg hax]
    simpa using slideY_keeps_free puz p dy.sign dy.natAbs 1 p.y hstart

/-- C5 witness: dragging the fallback goal piece down by 3 is blocked
immediately, and the returned position is free for it. -/
theorem resolveMove_safe_witness :
    isOccupied fallbackPuzzle (resolveMove fallbackPuzzle fallbackGoalPiece 0 3).1
      (resolveMove fallbackPuzzle fallbackGoalPiece 0 3).2
      fallbackGoalPiece.width fallbackGoalPiece.height fallbackGoalPiece.id = false :=
  resolveMove_safe fallbackPuzzle fallbackGoalPiece 0 3 (by decide) (by decide)

/-- C4: along a single axis, the resolver advances the piece by exactly
the number of consecutive free cells: if the first k offsets are free
and either k is the whole requested displacement or offset k+1 is
blocked, the returned position is the start plus k cells in the
direction of travel, on either axis. -/
theorem resolveMove_corridor (puz : Puzzle) (p : Piece) (d : Int) (k : Nat)
    (hk : k ≤ d.natAbs) :
    (d ≠ 0 →
      (∀ j : Nat, j < k →
        isOccupied puz (p.x + ((j : Int) + 1) * d.sign) p.y p.width p.height p.id = false) →
      (k = d.natAbs ∨
        isOccupied puz (p.x + ((k : Int) + 1) * d.sign) p.y p.width p.height p.id = true) →
      resolveMove puz p d 0 = (p.x + (k : Int) * d.sign, p.y)) ∧
    ((∀ j : Nat, j < k →
        isOccupied puz p.x (p.y + ((j : Int) + 1) * d.sign) p.width p.height p.id = false) →
      (k = d.natAbs ∨
        isOccupied puz p.x (p.y + ((k : Int) + 1) * d.sign) p.width p.height p.id = true) →
      resolveMove puz p 0 d = (p.x, p.y + (k : Int) * d.sign)) := by
  constructor
  · intro hd hfree hstop
    have hax : (0 : Int).natAbs < d.natAbs := Int.natAbs_pos.mpr hd
    unfold resolveMove
    rw [if_pos hax]
    have hfree2 : ∀ j : Nat, j < k →
        isOccupied puz (p.x + (((1 : Nat) : Int) + (j : Int)) * d.sign)
          p.y p.width p.height p.id = false := by
      intro j hj
      have h := hfree j hj
      rw [show ((j : Int) + 1) = (((1 : Nat) : Int) + (j : Int)) by push_cast; ring] at h
      exact h
    have hstop2 : k = d.natAbs ∨
        isOccupied puz (p.x + (((1 : Nat) : Int) + (k : Int)) * d.sign)
          p.y p.width p.height p.id = true := by
      cases hstop with
      | inl h => exact Or.inl h
      | inr h =>
        rw [show ((k : Int) + 1) = (((1 : Nat) : Int) + (k : Int)) by push_cast; ring] at h
        exact Or.inr h
    rw [slideX_run puz p d.sign d.natAbs 1 p.x k hk hfree2 hstop2]
    by_cases h0 : k = 0
    · subst h0; simp
    · rw [if_neg h0]
      norm_num
  · intro hfree hstop
    have hax : ¬ (d.natAbs < (0 : Int).natAbs) := by simp
    unfold resolveMove
    rw [if_neg hax]
    have hfree2 : ∀ j : Nat, j < k →
        isOccupied puz p.x (p.y + (((1 : Nat) : Int) + (j : Int)) * d.sign)
          p.width p.height p.id = false := by
      intro j hj
      have h := hfree j hj
      rw [show ((j : Int) + 1) = (((1 : Nat) : Int) + (j : Int)) by push_cast; ring] at h
      exact h
    have hstop2 : k = d.natAbs ∨
        isOccupied puz p.x (p.y + (((1 : Nat) : Int) + (k : Int)) * d.sign)
          p.width p.height p.id = true := by
      cases hstop with
      | inl h => exact Or.inl h
      | inr h =>
        rw [show ((k : Int) + 1) = (((1 : Nat) : Int) + (k : Int)) by push_cast; ring] at h
        exact Or.inr h
    rw [slideY_run puz p d.sign d.natAbs 1 p.y k hk hfree2 hstop2]
    by_cases h0 : k = 0
    · subst h0; simp
    · rw [if_neg h0]
      norm_num

/-- C4 witness: the scenario of the spec, a piece flush against a
neighbor with one free cell dragged by three cells, moves exactly one
cell. -/
theorem resolveMove_corridor_witness :
    resolveMove flushPuzzle flushMover 3 0 = (1, 0) := by
  have h := (resolveMove_corridor flushPuzzle flushMover 3 1 (by decide)).1
    (by decide) (by decide) (by decide)
  rw [h]
  decide

/-- When exactly one element of a list satisfies a predicate, find?
returns any member that satisfies it. -/
theorem find?_of_countP_eq_one {α : Type} (p : α → Bool) :
    ∀ (l : List α) (a : α), l.countP p = 1 → a ∈ l → p a = true →
      l.find? p = some a := by
  intro l
  induction l with
  | nil => intro a h; simp [List.countP_nil] at h
  | cons x xs ih =>
    intro a hcount hmem hpa
    by_cases hx : p x = true
    · rw [List.find?_cons_of_pos _ hx]
      have hxs : ∀ b ∈ xs, p b = false := by
        rw [List.countP_cons] at hcount
        simpa [hx] using hcount
      cases List.mem_cons.mp hmem with
      | inl h => rw [h]
      | inr h => exact absurd hpa (by simp [hxs a h])
    · rw [List.find?_cons_of_neg _ hx]
      apply ih a ?_ ?_ hpa
      · rw [List.countP_cons] at hcount
        simpa [hx] using hcount
      · cases List.mem_cons.mp hmem with
        | inl h => exact absurd (h ▸ hpa) hx
        | inr h => exact h

/-- C9: for a puzzle with non-overlapping pieces and exactly one goal
piece, the win check is true exactly when the goal piece sits on the
goal position, and its value is unchanged by any permutation of the
pieces collection. -/
theorem isSolved_goal_iff (puz : Puzzle) (g : Piece)
    (hno : nonOverlapping puz)
    (hcount : puz.pieces.countP (fun p => p.isGoal) = 1)
    (hg : g ∈ puz.pieces) (hgoal : g.isGoal = true) :
    (isSolved puz = true ↔ (g.x = puz.goalPosition.x ∧ g.y = puz.goalPosition.y)) ∧
    (∀ l2 : List Piece, l2.Perm puz.pieces →
      isSolved { puz with pieces := l2 } = isSolved puz) := by
  have hfind : puz.pieces.find? (fun p => p.isGoal) = some g :=
    find?_of_countP_eq_one _ puz.pieces g hcount hg hgoal
  constructor
  · unfold isSolved
    rw [hfind]
    simp
  · intro l2 hperm
    have hcount2 : l2.countP (fun p => p.isGoal) = 1 := by
      rw [hperm.countP_eq]
      exact hcount
    have hg2 : g ∈ l2 := hperm.mem_iff.mpr hg
    have hfind2 : l2.find? (fun p => p.isGoal) = some g :=
      find?_of_countP_eq_one _ l2 g hcount2 hg2 hgoal
    simp [isSolved, hfind, hfind2]

/-- C9 witness: on the fallback puzzle the win check evaluates exactly
to the comparison of the goal piece position with the goal cell. -/
theorem isSolved_goal_iff_witness :
    isSolved fallbackPuzzle = true ↔
      (fallbackGoalPiece.x = fallbackPuzzle.goalPosition.x ∧
       fallbackGoalPiece.y = fallbackPuzzle.goalPosition.y) :=
  (isSolved_goal_iff fallbackPuzzle fallbackGoalPiece (by decide) (by decide)
    (by decide) (by decide)).1

/-- C10: the win and expiry transitions update streaks only in place:
the list of player ids in the store is unchanged by both handleWin and
handleTimeUp, so no record is created for a team member without one and
none is removed. -/
theorem ledger_ids_frame (s : SharedGameState) (players : List Player) :
    (handleWin s players).2.map (fun p => p.id) = players.map (fun p => p.id) ∧
    (handleTimeUp s players).2.map (fun p => p.id) = players.map (fun p => p.id) := by
  constructor
  · unfold handleWin
    by_cases hv : s.view = View.game
    · rw [if_pos hv]
      exact updateTeamStreaks_map_id _ _ _
    · rw [if_neg hv]
  · unfold handleTimeUp
    by_cases hv : s.view = View.game
    · rw [if_pos hv]
      exact updateTeamStreaks_map_id _ _ _
    · rw [if_neg hv]

/-- A published puzzle-change snapshot keeps the view, team and start
time of the snapshot it came from and carries the moved puzzle. -/
theorem puzzleChangeResult_fields (s : SharedGameState) (pieceId dx dy : Int)
    (s1 : SharedGameState) (h : puzzleChangeResult s pieceId dx dy = some s1) :
    s1.view = s.view ∧ (∃ q, s1.puzzle = some q) ∧
    s1.gameStartTime = s.gameStartTime ∧ s1.team = s.team := by
  unfold puzzleChangeResult at h
  split at h
  · cases h
  · split at h
    · cases h
    · split at h
      · injection h with h2
        subst h2
        exact ⟨rfl, ⟨_, rfl⟩, rfl, rfl⟩
      · cases h

/-- C2 counterexample: on a concrete winning move the engine publishes
first a snapshot whose puzzle is already solved while the view is still
game, and only then the win snapshot, so the win transition is not
atomic with the move. -/
theorem winning_move_playing_snapshot_first :
    applyMovePublishes oneMoveState 1 0 1 =
      [ { oneMoveState with puzzle := some oneMovePuzzleSolved },
        { oneMoveState with puzzle := some oneMovePuzzleSolved, view := View.win } ] ∧
    isSolved oneMovePuzzleSolved = true ∧
    ({ oneMoveState with puzzle := some oneMovePuzzleSolved } : SharedGameState).view
      = View.game := by
  decide

/-- C2 amended: a move that solves the puzzle is published as exactly
two consecutive snapshots: first the puzzle-change snapshot with the
solved puzzle and the view still game, then the same snapshot with the
view win; the win is a separate second update caused by the move, with
nothing published in between. -/
theorem winning_move_two_publishes (s : SharedGameState) (pieceId dx dy : Int)
    (s1 : SharedGameState) (puz1 : Puzzle)
    (hv : s.view = View.game)
    (h1 : puzzleChangeResult s pieceId dx dy = some s1)
    (hp1 : s1.puzzle = some puz1)
    (hsol : isSolved puz1 = true) :
    applyMovePublishes s pieceId dx dy = [s1, { s1 with view := View.win }] ∧
    s1.view = View.game := by
  have hg : s1.view = View.game :=
    (puzzleChangeResult_fields s pieceId dx dy s1 h1).1.trans hv
  have hrw : applyMovePublishes s pieceId dx dy =
      (if isSolved puz1 = true ∧ s1.view = View.game then
        [s1, { s1 with view := View.win }] else [s1]) := by
    simp [applyMovePublishes, h1, hp1]
  rw [hrw, if_pos ⟨hsol, hg⟩]
  exact ⟨rfl, hg⟩

/-- C2 amended witness: the concrete winning move on the one-move board
publishes the solved-but-playing snapshot and then the win snapshot. -/
theorem winning_move_two_publishes_witness :
    applyMovePublishes oneMoveState 1 0 1 =
      [ { oneMoveState with puzzle := some oneMovePuzzleSolved },
        ({ oneMoveState with puzzle := some oneMovePuzzleSolved, view := View.win }) ] ∧
    ({ oneMoveState with puzzle := some oneMovePuzzleSolved } : SharedGameState).view
      = View.game :=
  winning_move_two_publishes oneMoveState 1 0 1
    { oneMoveState with puzzle := some oneMovePuzzleSolved } oneMovePuzzleSolved
    rfl (by decide) rfl (by decide)

/-- C3 counterexample: the expired snapshot reached by three joins, a
game start and a timer expiry is reachable and still carries the puzzle
and the start time, while the claim requires both to be absent in the
expired phase. -/
theorem expired_state_retains_puzzle :
    Reachable [] (badExpiredState, []) ∧
    badExpiredState.view = View.timesup ∧
    badExpiredState.puzzle = some fallbackPuzzle ∧
    badExpiredState.gameStartTime = some 0 := by
  refine ⟨?_, rfl, rfl, rfl⟩
  have st1 : Step (initialSharedState, ([] : List Player))
      ((⟨View.lobby, [pidA], none, none⟩ : SharedGameState), []) := by
    have h := Step.joinLeave initialSharedState [] pidA rfl
    have e : ({ initialSharedState with
        team := toggleTeam initialSharedState.team pidA } : SharedGameState)
        = ⟨View.lobby, [pidA], none, none⟩ := by decide
    rw [e] at h
    exact h
  have st2 : Step ((⟨View.lobby, [pidA], none, none⟩ : SharedGameState), ([] : List Player))
      ((⟨View.lobby, [pidA, pidB], none, none⟩ : SharedGameState), []) := by
    have h := Step.joinLeave ⟨View.lobby, [pidA], none, none⟩ [] pidB rfl
    have e : ({ (⟨View.lobby, [pidA], none, none⟩ : SharedGameState) with
        team := toggleTeam [pidA] pidB } : SharedGameState)
        = ⟨View.lobby, [pidA, pidB], none, none⟩ := by decide
    rw [e] at h
    exact h
  have st3 : Step ((⟨View.lobby, [pidA, pidB], none, none⟩ : SharedGameState),
      ([] : List Player))
      ((⟨View.lobby, [pidA, pidB, pidC], none, none⟩ : SharedGameState), []) := by
    have h := Step.joinLeave ⟨View.lobby, [pidA, pidB], none, none⟩ [] pidC rfl
    have e : ({ (⟨View.lobby, [pidA, pidB], none, none⟩ : SharedGameState) with
        team := toggleTeam [pidA, pidB] pidC } : SharedGameState)
        = ⟨View.lobby, [pidA, pidB, pidC], none, none⟩ := by decide
    rw [e] at h
    exact h
  have st4 : Step ((⟨View.lobby, [pidA, pidB, pidC], none, none⟩ : SharedGameState),
      ([] : List Player))
      ((⟨View.game, [pidA, pidB, pidC], some fallbackPuzzle, some 0⟩ : SharedGameState),
        []) :=
    Step.startGameStep ⟨View.lobby, [pidA, pidB, pidC], none, none⟩ [] fallbackPuzzle 0
      rfl (by decide)
  have st5 : Step ((⟨View.game, [pidA, pidB, pidC], some fallbackPuzzle, some 0⟩ :
      SharedGameState), ([] : List Player)) (badExpiredState, []) := by
    have h := Step.timeUpStep
      (⟨View.game, [pidA, pidB, pidC], some fallbackPuzzle, some 0⟩ : SharedGameState)
      [] rfl
    have e : (({ (⟨View.game, [pidA, pidB, pidC], some fallbackPuzzle, some 0⟩ :
        SharedGameState) with view := View.timesup } : SharedGameState),
        updateTeamStreaks (fun _ => 0) []
          (⟨View.game, [pidA, pidB, pidC], some fallbackPuzzle, some 0⟩ :
            SharedGameState).team)
        = ((badExpiredState, []) : SharedGameState × List Player) := by decide
    rw [e] at h
    exact h
  exact Relation.ReflTransGen.head st1 (Relation.ReflTransGen.head st2
    (Relation.ReflTransGen.head st3 (Relation.ReflTransGen.head st4
      (Relation.ReflTransGen.single st5))))

/-- C3 amended: in every snapshot reachable from the initial lobby
snapshot, puzzle and startTime are both present exactly when the phase
is game, win or timesup, and both absent exactly in the lobby phase;
the expired phase keeps them until the reset to lobby. -/
theorem reachable_presence_invariant (ps0 : List Player)
    (t : SharedGameState × List Player) (h : Reachable ps0 t) :
    ((t.1).puzzle.isSome = true ↔ (t.1).view ≠ View.lobby) ∧
    ((t.1).gameStartTime.isSome = true ↔ (t.1).view ≠ View.lobby) := by
  induction h with
  | refl => simp [initialSharedState]
  | tail hr hstep ih =>
    cases hstep with
    | joinLeave s ps pid hv => simpa using ih
    | startGameStep s ps gen tm hv hsz => simp
    | applyMoveStep s ps pieceId dx dy s1 hv hpub =>
      obtain ⟨hview, ⟨q, hq⟩, hgst, -⟩ :=
        puzzleChangeResult_fields s pieceId dx dy s1 hpub
      rw [hv] at ih
      constructor
      · simp [hq, hview, hv]
      · rw [hgst, hview, hv]
        exact ih.2
    | winFire s ps puz hv hp hsol =>
      rw [hv] at ih
      have hg : s.gameStartTime.isSome = true := ih.2.mpr (by simp)
      constructor
      · simp [hp]
      · simp [hg]
    | timeUpStep s ps hv =>
      rw [hv] at ih
      have hpz : s.puzzle.isSome = true := ih.1.mpr (by simp)
      have hg : s.gameStartTime.isSome = true := ih.2.mpr (by simp)
      constructor
      · simp [hpz]
      · simp [hg]
    | backToLobby s ps hv => simp [initialSharedState]

/-- C3 amended witness: at the initial lobby snapshot, which is
trivially reachable, puzzle and startTime presence matches the phase not
being lobby. -/
theorem reachable_presence_invariant_witness :
    (initialSharedState.puzzle.isSome = true ↔ initialSharedState.view ≠ View.lobby) ∧
    (initialSharedState.gameStartTime.isSome = true ↔
      initialSharedState.view ≠ View.lobby) :=
  reachable_presence_invariant [] (initialSharedState, []) Relation.ReflTransGen.refl

end Movetaller
